import Mathlib

/-!
Verification of the Tailscale SSH server core (ssh/tailssh/tailssh.go).

Shallow embedding: Go strings are modelled as `List Char` (`GoStr`), Go maps
as association lists, machine time as `Int` seconds, and I/O (HTTP fetches,
user lookup, banner sends) as explicit oracle parameters or response values.
Each definition is translated from the corresponding Go function; line
references point into ssh/tailssh/tailssh.go.
-/

set_option maxHeartbeats 1000000

deriving instance DecidableEq for Except

namespace Tailssh

/-- Go string, modelled as a list of characters. -/
abbrev GoStr := List Char

/-- Convert a Lean string literal to the `GoStr` model. -/
def gs (s : String) : GoStr := s.data

/-- Go map lookup `v, ok := m[k]` over the association-list model of a map:
returns the first binding's value and `true`, or the zero value `""` and
`false` when the key is absent. -/
def lookupGo (m : List (GoStr × GoStr)) (k : GoStr) : GoStr × Bool :=
  match m with
  | [] => ([], false)
  | (k0, v0) :: rest => if k0 = k then (v0, true) else lookupGo rest k

/-- `mapLocalUser` (tailssh.go:1215-1224): look up the requested SSH user in
the rule's SSHUsers map, falling back to the `"*"` entry when the key is
missing; a value `"="` means the requested name itself. -/
def mapLocalUser (ruleSSHUsers : List (GoStr × GoStr)) (reqSSHUser : GoStr) : GoStr :=
  let vok := lookupGo ruleSSHUsers reqSSHUser
  let v := if vok.2 then vok.1 else (lookupGo ruleSSHUsers (gs "*")).1
  if v = gs "=" then reqSSHUser else v

/-- Bridge between the Go-map model lookup and `List.lookup`. -/
theorem lookupGo_eq_lookup (m : List (GoStr × GoStr)) (k : GoStr) :
    lookupGo m k = ((List.lookup k m).getD [], (List.lookup k m).isSome) := by
  induction m with
  | nil => rfl
  | cons kv rest ih =>
    obtain ⟨k0, v0⟩ := kv
    by_cases h : k0 = k
    · subst h
      simp [lookupGo, List.lookup]
    · have h2 : (k == k0) = false := beq_eq_false_iff_ne.mpr (Ne.symm h)
      simp [lookupGo, List.lookup, h, h2, ih]

/-- Claim C2 (counterexample): with `ssh_users = {"*": "="}` and requested
user `alice`, the requested key is missing and a `"*"` key is present, yet
`mapLocalUser` returns `alice`, not `ssh_users["*"] = "="`: the claim's
"missing requested key with a `*` key present yields `ssh_users[*]`" is
false when the wildcard value is `"="`. -/
theorem mapLocalUser_wildcard_eq_counterexample :
    List.lookup (gs "alice") [(gs "*", gs "=")] = none ∧
    List.lookup (gs "*") [(gs "*", gs "=")] = some (gs "=") ∧
    mapLocalUser [(gs "*", gs "=")] (gs "alice") ≠ gs "=" := by
  refine ⟨by decide, by decide, by decide⟩

/-- Claim C2 (amended): `mapLocalUser` looks up the requested name directly
and on a missing key falls back to the `"*"` key; a retrieved value `"="`
(from either lookup) yields the requested name itself, any other non-empty
retrieved value is returned literally, and an empty or missing value yields
`""`; in particular a missing requested key with a `"*"` key present yields
`ssh_users["*"]` unless that value is `"="`, in which case it yields the
requested name; missing both yields `""`. The function is pure, hence
deterministic under fixed inputs. -/
theorem mapLocalUser_lookup_rules (m : List (GoStr × GoStr)) (req : GoStr) :
    (∀ v, List.lookup req m = some v →
      mapLocalUser m req = if v = gs "=" then req else v) ∧
    (List.lookup req m = none → ∀ w, List.lookup (gs "*") m = some w →
      mapLocalUser m req = if w = gs "=" then req else w) ∧
    (List.lookup req m = none → List.lookup (gs "*") m = none →
      mapLocalUser m req = []) := by
  refine ⟨?_, ?_, ?_⟩
  · intro v hv
    simp [mapLocalUser, lookupGo_eq_lookup, hv]
  · intro h w hw
    simp [mapLocalUser, lookupGo_eq_lookup, h, hw]
  · intro h hw
    have hne : ([] : GoStr) ≠ gs "=" := by decide
    simp [mapLocalUser, lookupGo_eq_lookup, h, hw, hne]

/-- Witness for `mapLocalUser_lookup_rules` at a concrete map covering all
three lookup situations. -/
theorem mapLocalUser_lookup_rules_witness :
    mapLocalUser [(gs "alice", gs "bob")] (gs "alice") = gs "bob" ∧
    mapLocalUser [(gs "*", gs "root")] (gs "alice") = gs "root" ∧
    mapLocalUser [] (gs "alice") = [] := by
  refine ⟨?_, ?_, ?_⟩
  · have h := (mapLocalUser_lookup_rules [(gs "alice", gs "bob")] (gs "alice")).1
      (gs "bob") (by decide)
    simpa using h
  · have h := (mapLocalUser_lookup_rules [(gs "*", gs "root")] (gs "alice")).2.1
      (by decide) (gs "root") (by decide)
    simpa using h
  · exact (mapLocalUser_lookup_rules [] (gs "alice")).2.2 (by decide) (by decide)

/-- Claim C10: when the requested user name is present as a key with an
empty-string value, `mapLocalUser` returns `""` — a present key shadows the
`"*"` wildcard whatever its value, because the direct lookup succeeds and
the wildcard is never consulted. -/
theorem mapLocalUser_present_empty_shadows_wildcard
    (m : List (GoStr × GoStr)) (req : GoStr)
    (h : List.lookup req m = some []) :
    mapLocalUser m req = [] := by
  have hne : ([] : GoStr) ≠ gs "=" := by decide
  simp [mapLocalUser, lookupGo_eq_lookup, h, hne]

/-- Witness for `mapLocalUser_present_empty_shadows_wildcard`: the requested
key is present with an empty value while a non-empty `"*"` entry exists; the
result is still `""`. -/
theorem mapLocalUser_present_empty_shadows_wildcard_witness :
    mapLocalUser [(gs "alice", []), (gs "*", gs "root")] (gs "alice") = [] :=
  mapLocalUser_present_empty_shadows_wildcard
    [(gs "alice", []), (gs "*", gs "root")] (gs "alice") (by decide)

/-- Go `strings.Cut(s, sep)` for a single-character separator: the part
before the first occurrence, the part after it, and whether it was found;
when absent, Go returns `(s, "", false)`. -/
def cutChar : GoStr → Char → GoStr × GoStr × Bool
  | [], _ => ([], [], false)
  | c :: rest, sep =>
    if c = sep then ([], rest, true)
    else
      let r := cutChar rest sep
      (c :: r.1, r.2.1, r.2.2)

theorem cutChar_append_sep (sep : Char) (t r : GoStr) (ht : sep ∉ t) :
    cutChar (t ++ sep :: r) sep = (t, r, true) := by
  induction t with
  | nil => simp [cutChar]
  | cons c rest ih =>
    have hc : c ≠ sep := fun h => ht (h ▸ List.mem_cons_self c rest)
    have hrest : sep ∉ rest := fun h => ht (List.mem_cons_of_mem c h)
    simp [cutChar, hc, ih hrest]

theorem cutChar_no_sep (sep : Char) (b : GoStr) (hb : sep ∉ b) :
    cutChar b sep = (b, [], false) := by
  induction b with
  | nil => rfl
  | cons c rest ih =>
    have hc : c ≠ sep := fun h => hb (h ▸ List.mem_cons_self c rest)
    have hrest : sep ∉ rest := fun h => hb (List.mem_cons_of_mem c h)
    simp [cutChar, hc, ih hrest]

/-- Value of a character in the standard base64 alphabet (RFC 4648),
as used by Go's `encoding/base64.StdEncoding`. -/
def b64Val (c : Char) : Option Nat :=
  if 'A' ≤ c ∧ c ≤ 'Z' then some (c.toNat - 65)
  else if 'a' ≤ c ∧ c ≤ 'z' then some (c.toNat - 97 + 26)
  else if '0' ≤ c ∧ c ≤ '9' then some (c.toNat - 48 + 52)
  else if c = '+' then some 62
  else if c = '/' then some 63
  else none

/-- Go `base64.StdEncoding.DecodeString`, modelled on byte lists: decodes
4-character quanta into 3 bytes, with `=`-padding allowed only in the final
quantum; returns the bytes decoded before the first malformed quantum
together with an ok flag (Go returns those bytes alongside the error, which
`pubKeyMatchesAuthorizedKey` ignores). -/
def base64DecodeGo : GoStr → List Nat × Bool
  | [] => ([], true)
  | c1 :: c2 :: c3 :: c4 :: rest =>
    match b64Val c1, b64Val c2 with
    | some v1, some v2 =>
      if c3 = '=' then
        if c4 = '=' ∧ rest = [] then ([v1 * 4 + v2 / 16], true)
        else ([], false)
      else
        match b64Val c3 with
        | some v3 =>
          if c4 = '=' then
            if rest = [] then ([v1 * 4 + v2 / 16, v2 % 16 * 16 + v3 / 4], true)
            else ([], false)
          else
            match b64Val c4 with
            | some v4 =>
              let tl := base64DecodeGo rest
              ([v1 * 4 + v2 / 16, v2 % 16 * 16 + v3 / 4, v3 % 4 * 64 + v4] ++ tl.1,
               tl.2)
            | none => ([], false)
        | none => ([], false)
    | _, _ => ([], false)
  | _ => ([], false)

/-- A client-presented SSH public key, reduced to the two observations the
server makes of it: `Type()` (the algorithm name) and `Marshal()` (the
SSH wire-format encoding, a byte string that is never empty for a real
key since it embeds the algorithm name with a length prefix). -/
structure GoPubKey where
  keyType : GoStr
  marshal : List Nat
deriving DecidableEq, Repr

/-- `pubKeyMatchesAuthorizedKey` (tailssh.go:1292-1303): split the
authorized-key line at the first space into type and rest, compare the key
type, split the rest at the next space, base64-decode that second field
(ignoring any decode error) and compare the bytes with the presented key's
wire marshalling, requiring a non-empty decode. -/
def pubKeyMatchesAuthorizedKey (pubKey : GoPubKey) (wantKey : GoStr) : Bool :=
  let cut1 := cutChar wantKey ' '
  if ¬ cut1.2.2 then false
  else if pubKey.keyType ≠ cut1.1 then false
  else
    let cut2 := cutChar cut1.2.1 ' '
    let wantKeyData := (base64DecodeGo cut2.1).1
    decide (wantKeyData.length > 0) && decide (pubKey.marshal = wantKeyData)

/-- Claim C3: for an entry of the form `<type> <base64> [comment]` (type and
base64 tokens space-free, the base64 field well-formed) and a presented key
with a non-empty wire marshalling, `pubKeyMatchesAuthorizedKey` returns true
iff the presented key's type equals the entry's type token and the base64
decoding of the second field equals the key's wire-format marshalling;
everything after the second field is ignored. -/
theorem pubKeyMatchesAuthorizedKey_iff (pk : GoPubKey) (t b64 comment entry : GoStr)
    (ht : ' ' ∉ t) (hb : ' ' ∉ b64) (hm : pk.marshal ≠ [])
    (_hok : (base64DecodeGo b64).2 = true)
    (hentry : entry = t ++ ' ' :: b64 ∨ entry = t ++ ' ' :: (b64 ++ ' ' :: comment)) :
    pubKeyMatchesAuthorizedKey pk entry = true ↔
      pk.keyType = t ∧ (base64DecodeGo b64).1 = pk.marshal := by
  have hmain : ∀ cut2after : GoStr × Bool,
      (let wantKeyData := (base64DecodeGo b64).1
       decide (wantKeyData.length > 0) && decide (pk.marshal = wantKeyData)) = true ↔
      (base64DecodeGo b64).1 = pk.marshal := by
    intro _
    simp only [Bool.and_eq_true, decide_eq_true_eq]
    constructor
    · rintro ⟨-, h⟩
      exact h.symm
    · intro h
      refine ⟨?_, h.symm⟩
      have : (base64DecodeGo b64).1 ≠ [] := h ▸ hm
      exact List.length_pos.mpr this
  rcases hentry with he | he <;> subst he
  · rw [pubKeyMatchesAuthorizedKey, cutChar_append_sep ' ' t b64 ht,
      cutChar_no_sep ' ' b64 hb]
    by_cases hkt : pk.keyType = t
    · simpa [hkt] using hmain ([], false)
    · simp [hkt]
  · rw [pubKeyMatchesAuthorizedKey, cutChar_append_sep ' ' t (b64 ++ ' ' :: comment) ht,
      cutChar_append_sep ' ' b64 comment hb]
    by_cases hkt : pk.keyType = t
    · simpa [hkt] using hmain (comment, true)
    · simp [hkt]

/-- Witness for `pubKeyMatchesAuthorizedKey_iff`: the entry
`"ssh-x AAAA"` matches a key of type `ssh-x` whose wire form is the three
zero bytes that `AAAA` decodes to. -/
theorem pubKeyMatchesAuthorizedKey_iff_witness :
    pubKeyMatchesAuthorizedKey ⟨gs "ssh-x", [0, 0, 0]⟩ (gs "ssh-x" ++ ' ' :: gs "AAAA") = true :=
  (pubKeyMatchesAuthorizedKey_iff ⟨gs "ssh-x", [0, 0, 0]⟩ (gs "ssh-x") (gs "AAAA") []
    (gs "ssh-x" ++ ' ' :: gs "AAAA") (by decide) (by decide) (by decide) (by decide)
    (Or.inl rfl)).mpr ⟨rfl, by decide⟩

/-- ASCII whitespace recognized by Go `strings.TrimSpace` (the Unicode
space classes beyond ASCII do not occur in authorized-key bodies). -/
def isSpaceGo (c : Char) : Bool :=
  c = ' ' || c = '\t' || c = '\n' || c = '\x0b' || c = '\x0c' || c = '\r'

/-- Go `strings.TrimSpace`. -/
def trimSpaceGo (s : GoStr) : GoStr :=
  ((s.dropWhile isSpaceGo).reverse.dropWhile isSpaceGo).reverse

/-- Go `strings.Split(s, sep)` for a one-character separator. -/
def splitOnCharGo : GoStr → Char → List GoStr
  | [], _ => [[]]
  | c :: rest, sep =>
    if c = sep then [] :: splitOnCharGo rest sep
    else
      match splitOnCharGo rest sep with
      | [] => [[c]]
      | hd :: tl => (c :: hd) :: tl

/-- Go map assignment `m[k] = v` (`mak.Set`) on the association-list model:
replaces the binding when present, appends it otherwise. -/
def mapSetGo {α : Type} : List (GoStr × α) → GoStr → α → List (GoStr × α)
  | [], k, v => [(k, v)]
  | (k0, v0) :: rest, k, v =>
    if k0 = k then (k, v) :: rest else (k0, v0) :: mapSetGo rest k v

/-- `pubKeyCacheEntry` (tailssh.go:583-587); the Go field `at` is named
`atTime` here (`at` is reserved in Lean). Time is modelled in seconds. -/
structure PubKeyCacheEntry where
  lines : List GoStr
  etag : GoStr
  atTime : Int
deriving DecidableEq, Repr

/-- `pubKeyCacheDuration` (tailssh.go:590): one minute, in seconds. -/
def pubKeyCacheDuration : Int := 60

/-- `pubKeyCacheEmptyDuration` (tailssh.go:591): fifteen seconds. -/
def pubKeyCacheEmptyDuration : Int := 15

/-- Max age applied to a cache entry (tailssh.go:610-613). -/
def maxAgeFor (ce : PubKeyCacheEntry) : Int :=
  if ce.lines = [] then pubKeyCacheEmptyDuration else pubKeyCacheDuration

/-- The opportunistic prune at the start of `fetchPublicKeysURLCached`
(tailssh.go:597-605): when the map holds more than 50 entries, delete every
entry whose `at` is before `now.Add(pubKeyCacheDuration * 10)` — note the
source adds the duration instead of subtracting it, so `tooOld` lies in the
future and every entry with `at < now + 600` is deleted. -/
def pruneKeyCacheIfLarge (m : List (GoStr × PubKeyCacheEntry)) (now : Int) :
    List (GoStr × PubKeyCacheEntry) :=
  if m.length > 50 then
    let tooOld := now + pubKeyCacheDuration * 10
    m.filter (fun kv => ¬ (kv.2.atTime < tooOld))
  else m

/-- `fetchPublicKeysURLCached` (tailssh.go:594-615): prune if oversized,
then look the URL up; report the entry (zero-valued when absent) and
whether it is fresh, along with the possibly pruned map. -/
def fetchPublicKeysURLCached (m : List (GoStr × PubKeyCacheEntry)) (now : Int)
    (url : GoStr) : PubKeyCacheEntry × Bool × List (GoStr × PubKeyCacheEntry) :=
  let m := pruneKeyCacheIfLarge m now
  match List.lookup url m with
  | none => (⟨[], [], 0⟩, false, m)
  | some ce => (ce, decide (now - ce.atTime < maxAgeFor ce), m)

/-- Outcome of the HTTPS GET performed by `fetchPublicKeysURL`: either the
transport errored, or a response with status, body and Etag header arrived. -/
inductive HTTPResp
  | transportError
  | resp (status : Nat) (body : GoStr) (etag : GoStr)

/-- Body handling of the 200 case (tailssh.go:660-666): read at most 4 KiB,
trim surrounding whitespace, split the remainder on newlines (empty body
yields no lines). -/
def parseKeyLines (body : GoStr) : List GoStr :=
  let s := trimSpaceGo (body.take 4096)
  if s = [] then [] else splitOnCharGo s '\n'

/-- `fetchPublicKeysURL` (tailssh.go:627-677): reject non-HTTPS URLs; serve
a fresh cache entry without fetching; otherwise consult the response: a
transport error returns early (cache untouched), 304 keeps the cached lines
and etag, 200 parses the body, and any other status produces an error —
after the switch the cache entry is unconditionally overwritten with
whatever `lines`/`etag` hold (empty on the error path) stamped `now`. -/
def fetchPublicKeysURL (m : List (GoStr × PubKeyCacheEntry)) (now : Int)
    (url : GoStr) (response : HTTPResp) :
    Except Unit (List GoStr) × List (GoStr × PubKeyCacheEntry) :=
  if ¬ (gs "https://").isPrefixOf url then (.error (), m)
  else
    let cr := fetchPublicKeysURLCached m now url
    let ce := cr.1
    let m1 := cr.2.2
    if cr.2.1 then (.ok ce.lines, m1)
    else
      match response with
      | .transportError => (.error (), m1)
      | .resp status body respEtag =>
        if status = 304 then
          (.ok ce.lines, mapSetGo m1 url ⟨ce.lines, ce.etag, now⟩)
        else if status = 200 then
          (.ok (parseKeyLines body), mapSetGo m1 url ⟨parseKeyLines body, respEtag, now⟩)
        else
          (.error (), mapSetGo m1 url ⟨[], [], now⟩)

/-- One-entry cache used to exhibit the C4 overwrite. -/
def c4cache : List (GoStr × PubKeyCacheEntry) :=
  [(gs "https://x", ⟨[gs "k"], gs "e", 0⟩)]

/-- Claim C4 (counterexample): with an existing (stale) cache entry, a fetch
that ends in HTTP status 500 returns an error but OVERWRITES the entry with
an empty one stamped `now` — the entry is not left unchanged as claimed. -/
theorem fetchPublicKeysURL_overwrite_counterexample :
    (fetchPublicKeysURL c4cache 100 (gs "https://x") (.resp 500 [] [])).1 = .error () ∧
    List.lookup (gs "https://x")
      (fetchPublicKeysURL c4cache 100 (gs "https://x") (.resp 500 [] [])).2 =
      some ⟨[], [], 100⟩ ∧
    (⟨[], [], 100⟩ : PubKeyCacheEntry) ≠ ⟨[gs "k"], gs "e", 0⟩ := by
  refine ⟨by decide, by decide, by decide⟩

/-- Claim C4 (amended): for a URL with an existing stale cache entry (map
small enough that the opportunistic prune does not run), a transport error
returns an error and leaves the cache unchanged; any HTTP status other than
200 and 304 returns an error but overwrites the entry with an empty one
stamped `now`; a 200 response replaces lines, etag and timestamp; a 304
response keeps the cached lines and etag while refreshing the timestamp. -/
theorem fetchPublicKeysURL_status_cases (m : List (GoStr × PubKeyCacheEntry))
    (now : Int) (url : GoStr) (ce0 : PubKeyCacheEntry)
    (hpre : (gs "https://").isPrefixOf url = true)
    (hlen : ¬ m.length > 50)
    (hmem : List.lookup url m = some ce0)
    (hstale : ¬ (now - ce0.atTime < maxAgeFor ce0)) :
    fetchPublicKeysURL m now url .transportError = (.error (), m) ∧
    (∀ status body etag, status ≠ 200 → status ≠ 304 →
      fetchPublicKeysURL m now url (.resp status body etag) =
        (.error (), mapSetGo m url ⟨[], [], now⟩)) ∧
    (∀ body etag, fetchPublicKeysURL m now url (.resp 304 body etag) =
      (.ok ce0.lines, mapSetGo m url ⟨ce0.lines, ce0.etag, now⟩)) ∧
    (∀ body etag, fetchPublicKeysURL m now url (.resp 200 body etag) =
      (.ok (parseKeyLines body), mapSetGo m url ⟨parseKeyLines body, etag, now⟩)) := by
  have hnp : pruneKeyCacheIfLarge m now = m := by
    simp [pruneKeyCacheIfLarge, hlen]
  refine ⟨?_, ?_, ?_, ?_⟩
  · simp [fetchPublicKeysURL, fetchPublicKeysURLCached, hnp, hpre, hmem, hstale]
  · intro status body etag h200 h304
    simp [fetchPublicKeysURL, fetchPublicKeysURLCached, hnp, hpre, hmem, hstale,
      h200, h304]
  · intro body etag
    simp [fetchPublicKeysURL, fetchPublicKeysURLCached, hnp, hpre, hmem, hstale]
  · intro body etag
    simp [fetchPublicKeysURL, fetchPublicKeysURLCached, hnp, hpre, hmem, hstale]

/-- Witness for `fetchPublicKeysURL_status_cases` at the concrete one-entry
cache: a transport error leaves the cache exactly as it was. -/
theorem fetchPublicKeysURL_status_cases_witness :
    fetchPublicKeysURL c4cache 100 (gs "https://x") .transportError =
      (.error (), c4cache) :=
  (fetchPublicKeysURL_status_cases c4cache 100 (gs "https://x") ⟨[gs "k"], gs "e", 0⟩
    (by decide) (by decide) (by decide) (by decide)).1

/-- A 51-entry cache map whose entries all carry timestamp 1000. -/
def c5cache : List (GoStr × PubKeyCacheEntry) :=
  (List.range 51).map (fun i => ([Char.ofNat (65 + i)], ⟨[gs "k"], [], 1000⟩))

/-- Claim C5 (code bug): at `now = 1000` the 51-entry map `c5cache` holds
only entries of age zero — the claim (and the spec) says the prune keeps
every entry younger than 10 × 60 s — yet the prune deletes all of them,
because the source computes `tooOld := now.Add(pubKeyCacheDuration * 10)`
with a `+` where the intent is `-`, making every entry look too old. -/
theorem pruneKeyCacheIfLarge_deletes_fresh_entries :
    c5cache.length = 51 ∧
    (∀ kv ∈ c5cache, ¬ (kv.2.atTime < 1000 - pubKeyCacheDuration * 10)) ∧
    pruneKeyCacheIfLarge c5cache 1000 = [] := by
  refine ⟨by decide, by decide, by decide⟩

/-- The subset of `tailcfg.Node` the SSH server reads. -/
structure TailcfgNode where
  stableID : GoStr
  nodeID : Int
deriving DecidableEq, Repr

/-- The subset of `tailcfg.UserProfile` the SSH server reads. -/
structure UserProfile where
  loginName : GoStr
deriving DecidableEq, Repr

/-- `sshConnInfo` (tailssh.go:1134-1149), for a connection whose identity is
set (`setInfo` succeeded): the requested SSH user (suffix already trimmed),
the source and destination overlay addresses in canonical string form, the
peer node and its user profile. -/
structure SSHConnInfo where
  sshUser : GoStr
  srcAddr : GoStr
  dstAddr : GoStr
  node : Option TailcfgNode
  uprof : UserProfile
deriving DecidableEq, Repr

/-- `tailcfg.SSHPrincipal`: identity clauses plus an optional
authorized-keys list. -/
structure SSHPrincipal where
  node : GoStr
  nodeIP : GoStr
  userLogin : GoStr
  any : Bool
  pubKeys : List GoStr
deriving DecidableEq, Repr

/-- `tailcfg.SSHAction`: the fields tailssh.go reads. `sessionDuration` is
in seconds (0 = unlimited). -/
structure SSHAction where
  accept : Bool
  reject : Bool
  message : GoStr
  holdAndDelegate : GoStr
  allowAgentForwarding : Bool
  allowLocalPortForwarding : Bool
  sessionDuration : Int
deriving DecidableEq, Repr

/-- `tailcfg.SSHRule`; rules and principals arrive as JSON-decoded pointer
slices, so elements may be nil (`none`), and the action pointer may be nil. -/
structure SSHRule where
  ruleExpires : Option Int
  principals : List (Option SSHPrincipal)
  sshUsers : List (GoStr × GoStr)
  action : Option SSHAction
deriving DecidableEq, Repr

/-- `tailcfg.SSHPolicy`: ordered rule list. -/
structure SSHPolicy where
  rules : List (Option SSHRule)
deriving DecidableEq, Repr

/-- Digit test for the IPv4 parser. -/
def isDigitGo (c : Char) : Bool := '0' ≤ c && c ≤ '9'

/-- Decimal value of a digit string. -/
def fieldVal (f : GoStr) : Nat := f.foldl (fun acc c => acc * 10 + (c.toNat - 48)) 0

/-- One dotted-quad field: 1-3 digits, value at most 255, no leading zero
(as `netip.ParseAddr` requires). -/
def validIPv4Field (f : GoStr) : Bool :=
  !f.isEmpty && decide (f.length ≤ 3) && f.all isDigitGo &&
    (decide (f.length = 1) || decide (f.headD '0' ≠ '0')) &&
    decide (fieldVal f ≤ 255)

/-- `netip.ParseAddr`, modelled for IPv4 dotted-quad strings (the claims do
not exercise IPv6): a valid address parses to its canonical form, which for
a well-formed dotted quad is the string itself; anything else fails, and in
the caller a failed parse compares unequal to the (valid) source address. -/
def parseAddrGo (s : GoStr) : Option GoStr :=
  let fields := splitOnCharGo s '.'
  if fields.length = 4 && fields.all validIPv4Field then some s else none

/-- `ruleExpired` (tailssh.go:1155-1160): nil `RuleExpires` never expires;
otherwise the rule is expired when the timestamp is strictly before now. -/
def ruleExpired (now : Int) (r : SSHRule) : Bool :=
  match r.ruleExpires with
  | none => false
  | some t => decide (t < now)

/-- `principalMatchesTailscaleIdentity` (tailssh.go:1250-1267): `Any`, or a
non-zero stable node ID equal to the peer node's, or a `NodeIP` that parses
to the source address, or a non-empty `UserLogin` equal to the profile's
login name. `PubKeys` is not considered. -/
def principalMatchesTailscaleIdentity (ci : SSHConnInfo) (p : SSHPrincipal) : Bool :=
  if p.any then true
  else if decide (p.node ≠ []) &&
      (match ci.node with
       | some n => decide (p.node = n.stableID)
       | none => false) then true
  else if decide (p.nodeIP ≠ []) &&
      (match parseAddrGo p.nodeIP with
       | some ip => decide (ip = ci.srcAddr)
       | none => false) then true
  else if decide (p.userLogin ≠ []) && decide (ci.uprof.loginName = p.userLogin) then true
  else false

/-- Sequential multi-pattern string replacement, the behavior of Go's
`strings.NewReplacer(...)` for the pattern sets used here (no pattern is a
prefix of another, so try-in-order at each position is equivalent). The
fuel argument bounds recursion; callers pass the string length, which
suffices because every step consumes at least one character for the
non-empty patterns used. -/
def replaceMultiAux (pairs : List (GoStr × GoStr)) : Nat → GoStr → GoStr
  | 0, s => s
  | _ + 1, [] => []
  | fuel + 1, c :: rest =>
    match pairs.find? (fun pr => pr.1.isPrefixOf (c :: rest)) with
    | some pr => pr.2 ++ replaceMultiAux pairs fuel ((c :: rest).drop pr.1.length)
    | none => c :: replaceMultiAux pairs fuel rest

/-- Entry point for the replacer model. -/
def replaceMulti (pairs : List (GoStr × GoStr)) (s : GoStr) : GoStr :=
  replaceMultiAux pairs s.length s

/-- `expandPublicKeyURL` (tailssh.go:773-783): expand `$LOGINNAME_EMAIL`
and `$LOGINNAME_LOCALPART` against the peer profile, leaving URLs without
a `$` untouched. -/
def expandPublicKeyURL (ci : SSHConnInfo) (pubKeyURL : GoStr) : GoStr :=
  if ¬ pubKeyURL.contains '$' then pubKeyURL
  else
    let loginName := ci.uprof.loginName
    let localPart := (cutChar loginName '@').1
    replaceMulti
      [(gs "$LOGINNAME_EMAIL", loginName), (gs "$LOGINNAME_LOCALPART", localPart)]
      pubKeyURL

/-- Oracle for `srv.fetchPublicKeysURL`: the lines fetched for a URL, or a
fetch error. -/
def FetchKeysFn := GoStr → Except Unit (List GoStr)

/-- `principalMatchesPubKey` (tailssh.go:1269-1290): empty `PubKeys` means
identity alone suffices; a nil client key never matches a pub-key-bearing
principal; a single `https://` entry is resolved through the key cache
(errors propagate); otherwise any entry may match the presented key. -/
def principalMatchesPubKey (ci : SSHConnInfo) (fetchKeys : FetchKeysFn)
    (p : SSHPrincipal) (clientPubKey : Option GoPubKey) : Except Unit Bool :=
  if p.pubKeys = [] then .ok true
  else
    match clientPubKey with
    | none => .ok false
    | some pk =>
      let fetched : Except Unit (List GoStr) :=
        match p.pubKeys with
        | [u] =>
          if (gs "https://").isPrefixOf u then fetchKeys (expandPublicKeyURL ci u)
          else .ok p.pubKeys
        | _ => .ok p.pubKeys
      match fetched with
      | .error e => .error e
      | .ok knownKeys => .ok (knownKeys.any (fun k => pubKeyMatchesAuthorizedKey pk k))

/-- `principalMatches` (tailssh.go:1240-1245). -/
def principalMatches (ci : SSHConnInfo) (fetchKeys : FetchKeysFn)
    (p : SSHPrincipal) (pubKey : Option GoPubKey) : Except Unit Bool :=
  if ¬ principalMatchesTailscaleIdentity ci p then .ok false
  else principalMatchesPubKey ci fetchKeys p pubKey

/-- `anyPrincipalMatches` (tailssh.go:1226-1238): first principal to match
wins; nil principals are skipped; errors propagate. -/
def anyPrincipalMatches (ci : SSHConnInfo) (fetchKeys : FetchKeysFn) :
    List (Option SSHPrincipal) → Option GoPubKey → Except Unit Bool
  | [], _ => .ok false
  | none :: rest, pk => anyPrincipalMatches ci fetchKeys rest pk
  | some p :: rest, pk =>
    match principalMatches ci fetchKeys p pk with
    | .error e => .error e
    | .ok true => .ok true
    | .ok false => anyPrincipalMatches ci fetchKeys rest pk

/-- The internal match errors (tailssh.go:1172-1179); a pub-key fetch
failure is folded into `fetchFailed`. -/
inductive MatchErr
  | nilRule | nilAction | expiredRule | principalMatch | userMatch | fetchFailed
deriving DecidableEq, Repr

/-- `matchRule` (tailssh.go:1181-1213); the conn is live and its info set,
so the `errInvalidConn` guards cannot fire in this model. -/
def matchRule (ci : SSHConnInfo) (now : Int) (fetchKeys : FetchKeysFn)
    (r : Option SSHRule) (pubKey : Option GoPubKey) :
    Except MatchErr (SSHAction × GoStr) :=
  match r with
  | none => .error .nilRule
  | some r =>
    match r.action with
    | none => .error .nilAction
    | some action =>
      if ruleExpired now r then .error .expiredRule
      else
        let localUser := if !action.reject then mapLocalUser r.sshUsers ci.sshUser else []
        if !action.reject && decide (localUser = []) then .error .userMatch
        else
          match anyPrincipalMatches ci fetchKeys r.principals pubKey with
          | .error _ => .error .fetchFailed
          | .ok false => .error .principalMatch
          | .ok true => .ok (action, localUser)

/-- `evalSSHPolicy` (tailssh.go:1162-1169): first rule whose `matchRule`
does not error wins; `none` models "no matching policy". -/
def evalSSHPolicy (ci : SSHConnInfo) (now : Int) (fetchKeys : FetchKeysFn) :
    List (Option SSHRule) → Option GoPubKey → Option (SSHAction × GoStr)
  | [], _ => none
  | r :: rest, pubKey =>
    match matchRule ci now fetchKeys r pubKey with
    | .ok res => some res
    | .error _ => evalSSHPolicy ci now fetchKeys rest pubKey

/-- `evaluatePolicy` (tailssh.go:569-579): `none` covers both "no SSH
policy" (the policy source is absent) and "no matching policy". -/
def evaluatePolicy (ci : SSHConnInfo) (now : Int) (fetchKeys : FetchKeysFn)
    (pol : Option SSHPolicy) (pubKey : Option GoPubKey) : Option (SSHAction × GoStr) :=
  match pol with
  | none => none
  | some pol => evalSSHPolicy ci now fetchKeys pol.rules pubKey

/-- The per-principal test inside `havePubKeyPolicy` (tailssh.go:483-487):
non-empty `PubKeys` and a Tailscale-identity match. The source does not
nil-check `p` here (a nil principal would crash it); nil principals are
outside the verified scope and mapped to `false`. -/
def principalHasPubKeyMatch (ci : SSHConnInfo) : Option SSHPrincipal → Bool
  | none => false
  | some p => decide (p.pubKeys ≠ []) && principalMatchesTailscaleIdentity ci p

/-- The per-rule test inside `havePubKeyPolicy` (tailssh.go:476-488): the
rule is not expired, maps the requested user, and has a principal with a
non-empty `PubKeys` list matching the identity. As above, the source does
not nil-check `r`; nil rules are outside the verified scope. -/
def havePubKeyRuleOk (ci : SSHConnInfo) (now : Int) : Option SSHRule → Bool
  | none => false
  | some r =>
    !ruleExpired now r && !decide (mapLocalUser r.sshUsers ci.sshUser = []) &&
      r.principals.any (principalHasPubKeyMatch ci)

/-- `havePubKeyPolicy` (tailssh.go:466-490): whether any policy rule may
provide access by means of a public key; `none` models "no policy". -/
def havePubKeyPolicy (ci : SSHConnInfo) (now : Int) : Option SSHPolicy → Bool
  | none => false
  | some pol => pol.rules.any (havePubKeyRuleOk ci now)

/-- Subset of `os/user.User` resolved by `user.Lookup` plus `GroupIds`. -/
structure LocalUser where
  username : GoStr
  uid : GoStr
  gid : GoStr
deriving DecidableEq, Repr

/-- Return value of `doPolicyAuth`, with its distinct error outcomes:
`ok` (nil), the `errPubKeyRequired` sentinel, `gossh.ErrDenied` (possibly
wrapped), and the non-denial errors of the user-lookup and banner paths. -/
inductive AuthResult
  | ok | pubKeyRequired | denied | lookupFailed | bannerFailed
deriving DecidableEq, Repr

/-- `doPolicyAuth` (tailssh.go:345-389) for a connection whose identity is
already set (`setInfo` returns nil immediately). The user/group lookup is
an oracle (`none` = lookup or group-id resolution failed), and `bannerOk`
says whether `SendAuthBanner` succeeds. State writes (`action0`,
`currentAction`, `finalAction`, `pubKey`, `localUser`, `userGroupIDs`) are
not needed by the claims over this function and are omitted; the connection
action state machine is modelled separately for `resolveNextAction`. -/
def doPolicyAuth (ci : SSHConnInfo) (now : Int) (pol : Option SSHPolicy)
    (fetchKeys : FetchKeysFn) (lookupUser : GoStr → Option LocalUser)
    (bannerOk : Bool) (pubKey : Option GoPubKey) : AuthResult :=
  match evaluatePolicy ci now fetchKeys pol pubKey with
  | none =>
    if pubKey.isNone && havePubKeyPolicy ci now pol then .pubKeyRequired
    else .denied
  | some (a, localUser) =>
    if decide (a.message ≠ []) && !bannerOk then .bannerFailed
    else if a.accept || decide (a.holdAndDelegate ≠ []) then
      match lookupUser localUser with
      | none => .lookupFailed
      | some _ => .ok
    else .denied

/-- No JSON-null rules or principals: on such policies `havePubKeyPolicy`
in the source would dereference nil, so claims are scoped away from them. -/
def noNilEntries (pol : SSHPolicy) : Bool :=
  pol.rules.all (fun r =>
    match r with
    | none => false
    | some rule => rule.principals.all (fun p => p.isSome))

/-- Claim C1's own condition for the sentinel, as the claim states it: some
rule has a principal clause matched by the current Tailscale identity with
a non-empty `pub_keys` list (no condition on expiry or user mapping). -/
def ClaimC1Pred (ci : SSHConnInfo) (pol : SSHPolicy) : Prop :=
  ∃ rule : SSHRule, some rule ∈ pol.rules ∧
    ∃ pr : SSHPrincipal, some pr ∈ rule.principals ∧
      pr.pubKeys ≠ [] ∧ principalMatchesTailscaleIdentity ci pr = true

/-- The condition the code actually tests (`havePubKeyPolicy`), stated
declaratively: some rule is unexpired, maps the requested user to a
non-empty local user, and has a principal with non-empty `pub_keys`
matching the identity. -/
def HavePubKeySpec (ci : SSHConnInfo) (now : Int) (pol : SSHPolicy) : Prop :=
  ∃ rule : SSHRule, some rule ∈ pol.rules ∧
    ruleExpired now rule = false ∧
    mapLocalUser rule.sshUsers ci.sshUser ≠ [] ∧
    ∃ pr : SSHPrincipal, some pr ∈ rule.principals ∧
      pr.pubKeys ≠ [] ∧ principalMatchesTailscaleIdentity ci pr = true

theorem principalHasPubKeyMatch_iff (ci : SSHConnInfo) (p : Option SSHPrincipal) :
    principalHasPubKeyMatch ci p = true ↔
      ∃ pr : SSHPrincipal, p = some pr ∧ pr.pubKeys ≠ [] ∧
        principalMatchesTailscaleIdentity ci pr = true := by
  cases p with
  | none => simp [principalHasPubKeyMatch]
  | some pr => simp [principalHasPubKeyMatch]

theorem havePubKeyPolicy_iff (ci : SSHConnInfo) (now : Int) (pol : SSHPolicy) :
    havePubKeyPolicy ci now (some pol) = true ↔ HavePubKeySpec ci now pol := by
  unfold havePubKeyPolicy HavePubKeySpec
  rw [List.any_eq_true]
  constructor
  · rintro ⟨r, hr, hok⟩
    cases r with
    | none => simp [havePubKeyRuleOk] at hok
    | some rule =>
      simp only [havePubKeyRuleOk, Bool.and_eq_true, Bool.not_eq_true',
        decide_eq_false_iff_not, List.any_eq_true] at hok
      obtain ⟨⟨hexp, huser⟩, p, hp, hpok⟩ := hok
      obtain ⟨pr, rfl, hne, hmat⟩ := (principalHasPubKeyMatch_iff ci p).mp hpok
      exact ⟨rule, hr, hexp, huser, pr, hp, hne, hmat⟩
  · rintro ⟨rule, hr, hexp, huser, pr, hp, hne, hmat⟩
    refine ⟨some rule, hr, ?_⟩
    simp only [havePubKeyRuleOk, Bool.and_eq_true, Bool.not_eq_true',
      decide_eq_false_iff_not, List.any_eq_true]
    exact ⟨⟨hexp, huser⟩, some pr, hp,
      (principalHasPubKeyMatch_iff ci (some pr)).mpr ⟨pr, rfl, hne, hmat⟩⟩

/-- Policy and identity exhibiting the C1 counterexample: an `Any` principal
with a non-empty `pub_keys` list sits in a rule whose `ssh_users` is empty. -/
def c1accept : SSHAction :=
  { accept := true, reject := false, message := [], holdAndDelegate := [],
    allowAgentForwarding := false, allowLocalPortForwarding := false,
    sessionDuration := 0 }

def c1principal : SSHPrincipal :=
  { node := [], nodeIP := [], userLogin := [], any := true, pubKeys := [gs "k"] }

def c1rule : SSHRule :=
  { ruleExpires := none, principals := [some c1principal],
    sshUsers := [], action := some c1accept }

def c1pol : SSHPolicy := ⟨[some c1rule]⟩

def c1info : SSHConnInfo :=
  { sshUser := gs "alice", srcAddr := gs "100.64.0.2", dstAddr := gs "100.64.0.1",
    node := some ⟨gs "n1", 1⟩, uprof := ⟨gs "alice@example.com"⟩ }

def c1fetch : FetchKeysFn := fun _ => .ok []

def c1lookup : GoStr → Option LocalUser := fun u => some ⟨u, gs "1000", gs "1000"⟩

/-- Claim C1 (counterexample): under `c1pol` the policy has no match for a
nil public key, and it contains a rule whose principal is matched by the
identity and has non-empty `pub_keys` — the claim therefore demands the
sentinel — yet `doPolicyAuth` returns plain denial, because the rule's
`ssh_users` does not map the requested user and `havePubKeyPolicy` also
requires that mapping. -/
theorem doPolicyAuth_sentinel_counterexample :
    evalSSHPolicy c1info 0 c1fetch c1pol.rules none = none ∧
    ClaimC1Pred c1info c1pol ∧
    doPolicyAuth c1info 0 (some c1pol) c1fetch c1lookup true none = .denied ∧
    AuthResult.denied ≠ AuthResult.pubKeyRequired := by
  refine ⟨by decide, ?_, by decide, by decide⟩
  exact ⟨c1rule, by decide, c1principal, by decide, by decide, by decide⟩

/-- Claim C1 (amended): for a connection with its identity set and a policy
(without JSON-null rules or principals) under which `evaluatePolicy` finds
no matching rule when no client public key is supplied, `doPolicyAuth`
returns the "public-key required" sentinel iff the policy contains at least
one unexpired rule whose `ssh_users` maps the requested user to a non-empty
local user and whose principals include one matched by the current
Tailscale identity carrying a non-empty `pub_keys` list; otherwise it
returns denial. -/
theorem doPolicyAuth_pubkey_sentinel (ci : SSHConnInfo) (now : Int)
    (pol : SSHPolicy) (fetchKeys : FetchKeysFn)
    (lookupUser : GoStr → Option LocalUser) (bannerOk : Bool)
    (_hnn : noNilEntries pol = true)
    (hnomatch : evalSSHPolicy ci now fetchKeys pol.rules none = none) :
    (doPolicyAuth ci now (some pol) fetchKeys lookupUser bannerOk none = .pubKeyRequired
      ↔ HavePubKeySpec ci now pol) ∧
    (¬ HavePubKeySpec ci now pol →
      doPolicyAuth ci now (some pol) fetchKeys lookupUser bannerOk none = .denied) := by
  have hd : doPolicyAuth ci now (some pol) fetchKeys lookupUser bannerOk none =
      if havePubKeyPolicy ci now (some pol) then .pubKeyRequired else .denied := by
    simp [doPolicyAuth, evaluatePolicy, hnomatch]
  constructor
  · rw [hd]
    by_cases h : havePubKeyPolicy ci now (some pol) = true
    · rw [if_pos h]
      exact ⟨fun _ => (havePubKeyPolicy_iff ci now pol).mp h, fun _ => rfl⟩
    · rw [if_neg h]
      exact iff_of_false (by decide)
        (fun hs => h ((havePubKeyPolicy_iff ci now pol).mpr hs))
  · intro hs
    rw [hd, if_neg (fun h => hs ((havePubKeyPolicy_iff ci now pol).mp h))]

/-- Policy for the C1 witness: the rule maps the user and its principal
requires a public key, so with a nil key there is no match but the sentinel
fires. -/
def c1wrule : SSHRule :=
  { ruleExpires := none, principals := [some c1principal],
    sshUsers := [(gs "alice", gs "=")], action := some c1accept }

def c1wpol : SSHPolicy := ⟨[some c1wrule]⟩

/-- Witness for `doPolicyAuth_pubkey_sentinel`: under `c1wpol` the sentinel
is returned. -/
theorem doPolicyAuth_pubkey_sentinel_witness :
    doPolicyAuth c1info 0 (some c1wpol) c1fetch c1lookup true none =
      AuthResult.pubKeyRequired :=
  (doPolicyAuth_pubkey_sentinel c1info 0 c1wpol c1fetch c1lookup true
    (by decide) (by decide)).1.mpr
    ⟨c1wrule, by decide, by decide, by decide, c1principal, by decide, by decide, by decide⟩

/-- Uppercase hex digit for percent-encoding. -/
def hexDigitUpper (n : Nat) : Char :=
  if n < 10 then Char.ofNat (48 + n) else Char.ofNat (65 + (n - 10))

/-- Whether `url.QueryEscape` leaves the (ASCII) character unescaped:
alphanumerics and `-`, `_`, `.`, `~`. -/
def queryUnescapedChar (c : Char) : Bool :=
  ('A' ≤ c && c ≤ 'Z') || ('a' ≤ c && c ≤ 'z') || ('0' ≤ c && c ≤ '9') ||
    c = '-' || c = '_' || c = '.' || c = '~'

/-- Go `url.QueryEscape` on ASCII strings: space becomes `+`, unreserved
characters pass through, everything else becomes `%XX`. -/
def queryEscapeGo (s : GoStr) : GoStr :=
  s.flatMap (fun c =>
    if c = ' ' then ['+']
    else if queryUnescapedChar c then [c]
    else ['%', hexDigitUpper (c.toNat / 16), hexDigitUpper (c.toNat % 16)])

/-- The subset of the network map `expandDelegateURLLocked` reads. -/
structure NetMapInfo where
  selfNodeID : Int
deriving DecidableEq, Repr

/-- `fmt.Sprint` of an integer node ID. -/
def intToGoStr (n : Int) : GoStr := (toString n).data

/-- `expandDelegateURLLocked` (tailssh.go:755-771): substitute the six
tokens into the delegate URL; node IDs print as integers, the other values
are query-escaped. `ci.node` is non-nil whenever the info is set, and the
nil network map yields an empty `$DST_NODE_ID`. -/
def expandDelegateURLLocked (ci : SSHConnInfo) (nm : Option NetMapInfo)
    (localUserName : GoStr) (actionURL : GoStr) : GoStr :=
  let dstNodeID := match nm with
    | some nm => intToGoStr nm.selfNodeID
    | none => []
  let srcNodeID := match ci.node with
    | some n => intToGoStr n.nodeID
    | none => []
  replaceMulti
    [(gs "$SRC_NODE_IP", queryEscapeGo ci.srcAddr),
     (gs "$SRC_NODE_ID", srcNodeID),
     (gs "$DST_NODE_IP", queryEscapeGo ci.dstAddr),
     (gs "$DST_NODE_ID", dstNodeID),
     (gs "$SSH_USER", queryEscapeGo ci.sshUser),
     (gs "$LOCAL_USER", queryEscapeGo localUserName)]
    actionURL

/-- Errors produced by `resolveNextAction` itself. -/
inductive ResolveErr
  | malformedAction
  | fetchFailed
deriving DecidableEq, Repr

/-- The action-related connection state written by `doPolicyAuth` and
`resolveNextAction` (tailssh.go:212-215). `currentAction` is non-nil by the
time `resolveNextAction` runs (`doPolicyAuth` set it). -/
structure ConnActionState where
  currentAction : SSHAction
  finalAction : Option SSHAction
  finalActionErr : Option ResolveErr
deriving DecidableEq, Repr

/-- The deferred block of `resolveNextAction` (tailssh.go:710-720): record
the action as `currentAction` (and as `finalAction` when terminal) and
record any error as `finalActionErr`. -/
def resolveDeferUpdate (st : ConnActionState) (action : Option SSHAction)
    (err : Option ResolveErr) : ConnActionState :=
  let st1 := match action with
    | some a =>
      { st with currentAction := a,
                finalAction := if a.accept || a.reject then some a else st.finalAction }
    | none => st
  match err with
  | some e => { st1 with finalActionErr := some e }
  | none => st1

/-- `resolveNextAction` (tailssh.go:705-753), with the HTTP fetch of
`fetchSSHAction` (retry loop, backoff, 30-minute deadline — pure I/O) as an
oracle. Returns the `(action, err)` pair the Go function returns, the
connection action state after the deferred updates, and whether an HTTP
fetch was performed. If a final action or resolution error is already
recorded, it is returned as-is, without touching the network or the state. -/
def resolveNextAction (st : ConnActionState) (ci : SSHConnInfo)
    (nm : Option NetMapInfo) (localUserName : GoStr)
    (fetchAction : GoStr → Except Unit SSHAction) :
    (Option SSHAction × Option ResolveErr) × ConnActionState × Bool :=
  if st.finalAction.isSome || st.finalActionErr.isSome then
    ((st.finalAction, st.finalActionErr), st, false)
  else
    let action := st.currentAction
    if action.accept || action.reject then
      ((some action, none), resolveDeferUpdate st (some action) none, false)
    else if action.holdAndDelegate = [] then
      ((none, some .malformedAction),
       resolveDeferUpdate st none (some .malformedAction), false)
    else
      let url := expandDelegateURLLocked ci nm localUserName action.holdAndDelegate
      match fetchAction url with
      | .error _ =>
        ((none, some .fetchFailed), resolveDeferUpdate st none (some .fetchFailed), true)
      | .ok nextAction =>
        ((some nextAction, none), resolveDeferUpdate st (some nextAction) none, true)

/-- Claim C6: once a terminal action is stored in `final_action` — whether
by `doPolicyAuth` (which stores an Accept action it reaches) or by a
previous `resolveNextAction` call (whose deferred block stores terminal
actions) — every subsequent `resolveNextAction` call returns that same
action together with the stored resolution error, leaves the state
untouched (so the same holds for all later calls), and performs no HTTP
fetch. -/
theorem resolveNextAction_terminal_idempotent (st : ConnActionState)
    (ci : SSHConnInfo) (nm : Option NetMapInfo) (localUserName : GoStr)
    (fetchAction : GoStr → Except Unit SSHAction) (a : SSHAction)
    (hfin : st.finalAction = some a) :
    resolveNextAction st ci nm localUserName fetchAction =
      ((some a, st.finalActionErr), st, false) := by
  simp [resolveNextAction, hfin]

/-- Witness for `resolveNextAction_terminal_idempotent` at a state holding
a terminal Accept action: the same action comes back, no fetch happens. -/
theorem resolveNextAction_terminal_idempotent_witness :
    resolveNextAction ⟨c1accept, some c1accept, none⟩ c1info none (gs "alice")
      (fun _ => .error ()) = ((some c1accept, none), ⟨c1accept, some c1accept, none⟩, false) :=
  resolveNextAction_terminal_idempotent ⟨c1accept, some c1accept, none⟩ c1info none
    (gs "alice") (fun _ => .error ()) c1accept rfl

/-- `forcePasswordSuffix` (tailssh.go:55). -/
def forcePasswordSuffix : GoStr := gs "+password"

/-- Go `strings.HasSuffix`. -/
def hasSuffixGo (s suffix : GoStr) : Bool := suffix.isSuffixOf s

/-- The errors flowing between the auth callbacks: the `errPubKeyRequired`
sentinel (tailssh.go:267), the "any password please" sentinel
(tailssh.go:295), `gossh.ErrDenied`, and anything else. -/
inductive SSHErr
  | pubKeyRequired
  | anyPasswordPlease
  | denied
  | other
deriving DecidableEq, Repr

/-- `NoClientAuthCallback` (tailssh.go:279-298) on a fresh connection
(`anyPasswordIsOkay` starts false). The outcomes of `doPolicyAuth` and
`isAuthorized` enter as oracle values (`none` = success). Returns the
`anyPasswordIsOkay` field after the call and the returned error. -/
def NoClientAuthCallback (insecureSkipTailscaleAuth : Bool) (ctxUser : GoStr)
    (policyAuthErr : Option SSHErr) (isAuthorizedErr : Option SSHErr) :
    Bool × Option SSHErr :=
  if insecureSkipTailscaleAuth then (false, none)
  else
    match policyAuthErr with
    | some e => (false, some e)
    | none =>
      match isAuthorizedErr with
      | some e => (false, some e)
      | none =>
        if hasSuffixGo ctxUser forcePasswordSuffix then (true, some .anyPasswordPlease)
        else (false, none)

/-- `nextAuthMethodCallback` (tailssh.go:300-312): offer `password` when
`anyPasswordIsOkay`, else `publickey` when the last error was the
public-key sentinel; always append the cosmetic `tailscale` method. -/
def nextAuthMethodCallback (anyPasswordIsOkay : Bool) (prevErrors : List SSHErr) :
    List GoStr :=
  let nextMethod : List GoStr :=
    if anyPasswordIsOkay then [gs "password"]
    else if decide (prevErrors.length > 0) &&
        decide (prevErrors.getLast? = some .pubKeyRequired) then [gs "publickey"]
    else []
  nextMethod ++ [gs "tailscale"]

/-- `fakePasswordHandler` (tailssh.go:321-323): accept any password iff
`anyPasswordIsOkay`; no password is ever checked. -/
def fakePasswordHandler (anyPasswordIsOkay : Bool) (_password : GoStr) : Bool :=
  anyPasswordIsOkay

/-- Claim C7: when the requested user name ends in `+password` and policy
evaluation authorizes the connection (both `doPolicyAuth` and
`isAuthorized` succeed), the none-auth callback sets `anyPasswordIsOkay`
and returns a non-nil error; the next-auth-method callback then offers
`password` (before the cosmetic `tailscale` entry), and the password
callback accepts every password; with the flag unset it rejects every
password. -/
theorem noClientAuth_password_suffix_flow (ctxUser : GoStr)
    (prevErrors : List SSHErr) (pw pw2 : GoStr)
    (hsuf : hasSuffixGo ctxUser forcePasswordSuffix = true) :
    (NoClientAuthCallback false ctxUser none none).1 = true ∧
    (NoClientAuthCallback false ctxUser none none).2 ≠ none ∧
    nextAuthMethodCallback (NoClientAuthCallback false ctxUser none none).1 prevErrors =
      [gs "password", gs "tailscale"] ∧
    fakePasswordHandler (NoClientAuthCallback false ctxUser none none).1 pw = true ∧
    fakePasswordHandler false pw2 = false := by
  simp [NoClientAuthCallback, hsuf, nextAuthMethodCallback, fakePasswordHandler]

/-- Witness for `noClientAuth_password_suffix_flow` with requested user
`root+password`. -/
theorem noClientAuth_password_suffix_flow_witness :
    (NoClientAuthCallback false (gs "root+password") none none).1 = true ∧
    (NoClientAuthCallback false (gs "root+password") none none).2 ≠ none ∧
    nextAuthMethodCallback (NoClientAuthCallback false (gs "root+password") none none).1 [] =
      [gs "password", gs "tailscale"] ∧
    fakePasswordHandler (NoClientAuthCallback false (gs "root+password") none none).1 (gs "hunter2") = true ∧
    fakePasswordHandler false (gs "hunter2") = false :=
  noClientAuth_password_suffix_flow (gs "root+password") [] (gs "hunter2") (gs "hunter2")
    (by decide)

/-- The server/connection state the shutdown fence governs: the
`shutdownCalled` flag (under `srv.mu`) and the connection's session list
(the `sessionWaitGroup` counter is implicit in the list length). Sessions
are identified by number. -/
structure SrvConnState where
  shutdownCalled : Bool
  sessions : List Nat
deriving DecidableEq, Repr

/-- `attachSessionToConnIfNotShutdown` (tailssh.go:112-121): refuse when
the fence is set, otherwise `attachSession` (tailssh.go:918-926) appends
the session. Reports whether the session was attached. -/
def attachSessionToConnIfNotShutdown (st : SrvConnState) (ss : Nat) :
    SrvConnState × Bool :=
  if st.shutdownCalled then (st, false)
  else ({ st with sessions := st.sessions ++ [ss] }, true)

/-- Removal of the first matching session (`detachSession`,
tailssh.go:929-939). -/
def removeFirstGo : List Nat → Nat → List Nat
  | [], _ => []
  | x :: rest, ss => if x = ss then rest else x :: removeFirstGo rest ss

/-- The operations that touch this state: session attach, session detach,
and `Shutdown` (tailssh.go:153-161), which sets the fence and never clears
it. -/
inductive SrvOp
  | attach (ss : Nat)
  | detach (ss : Nat)
  | shutdown
deriving DecidableEq, Repr

/-- One step of the server state machine. -/
def srvStep (st : SrvConnState) : SrvOp → SrvConnState
  | .attach ss => (attachSessionToConnIfNotShutdown st ss).1
  | .detach ss => { st with sessions := removeFirstGo st.sessions ss }
  | .shutdown => { st with shutdownCalled := true }

/-- The fence check at the top of `sshSession.run` (tailssh.go:1003-1007):
a session refused by the fence is told the server is shutting down and
exits with code 1; an attached session proceeds (no output, no exit yet). -/
def runShutdownGate (st : SrvConnState) (ss : Nat) :
    SrvConnState × Option (GoStr × Nat) :=
  let r := attachSessionToConnIfNotShutdown st ss
  if r.2 then (r.1, none)
  else (r.1, some (gs "Tailscale SSH is shutting down\r\n", 1))

theorem srvStep_shutdown_sticky (ops : List SrvOp) :
    ∀ st : SrvConnState, st.shutdownCalled = true →
      (ops.foldl srvStep st).shutdownCalled = true := by
  induction ops with
  | nil => intro st h; exact h
  | cons op rest ih =>
    intro st h
    apply ih
    cases op with
    | attach ss => simp [srvStep, attachSessionToConnIfNotShutdown, h]
    | detach ss => simpa [srvStep] using h
    | shutdown => simp [srvStep]

/-- Claim C8: a (new) session is added to the connection's session list iff
the shutdown flag is not set at attach time; once `Shutdown` has set the
flag, no sequence of further attach/detach/shutdown operations clears it
and every later attach fails; and a session refused by the fence writes the
shutting-down message to the client and exits with code 1. -/
theorem attachSession_iff_not_shutdown (st : SrvConnState) (ss : Nat)
    (hnew : ss ∉ st.sessions) :
    ((ss ∈ (attachSessionToConnIfNotShutdown st ss).1.sessions ∧
        (attachSessionToConnIfNotShutdown st ss).2 = true) ↔
      st.shutdownCalled = false) ∧
    (st.shutdownCalled = true →
      (∀ ops : List SrvOp, (ops.foldl srvStep st).shutdownCalled = true ∧
        ∀ s2, (attachSessionToConnIfNotShutdown (ops.foldl srvStep st) s2).2 = false) ∧
      runShutdownGate st ss =
        (st, some (gs "Tailscale SSH is shutting down\r\n", 1))) := by
  constructor
  · cases h : st.shutdownCalled with
    | true => simp [attachSessionToConnIfNotShutdown, h, hnew]
    | false => simp [attachSessionToConnIfNotShutdown, h]
  · intro h
    refine ⟨fun ops => ?_, ?_⟩
    · have hs := srvStep_shutdown_sticky ops st h
      exact ⟨hs, fun s2 => by simp [attachSessionToConnIfNotShutdown, hs]⟩
    · simp [runShutdownGate, attachSessionToConnIfNotShutdown, h]

/-- Witness for `attachSession_iff_not_shutdown` on a shut-down server:
the gate refuses and reports the message and exit code 1. -/
theorem attachSession_iff_not_shutdown_witness :
    runShutdownGate ⟨true, []⟩ 0 =
      (⟨true, []⟩, some (gs "Tailscale SSH is shutting down\r\n", 1)) :=
  ((attachSession_iff_not_shutdown ⟨true, []⟩ 0 (by decide)).2 rfl).2

/-- The two racers for a session's `exitOnce` gate (`sync.Once`): the
natural child exit observed by `cmd.Wait` in `sshSession.run`, whose body
is a no-op (tailssh.go:1103-1107), and the context-cancellation watcher
`killProcessOnContextDone`, whose body is the only place
`cmd.Process.Kill` is called (tailssh.go:896-915). -/
inductive ExitRacer
  | naturalExit
  | contextDone
deriving DecidableEq, Repr

/-- Number of `cmd.Process.Kill` invocations over a serialized sequence of
`exitOnce.Do` calls (Go's `sync.Once` serializes the bodies), starting from
the given done flag: only the first `Do` runs its body, and only the
`contextDone` body kills. -/
def killsInvoked : Bool → List ExitRacer → Nat
  | _, [] => 0
  | true, _ :: rest => killsInvoked true rest
  | false, r :: rest =>
    (match r with
     | .contextDone => 1
     | .naturalExit => 0) + killsInvoked true rest

theorem killsInvoked_done (l : List ExitRacer) : killsInvoked true l = 0 := by
  induction l with
  | nil => rfl
  | cons r rest ih => simpa [killsInvoked] using ih

/-- Claim C9: for every session, over every interleaving of the two racers
(indeed over any sequence of `exitOnce.Do` calls), `cmd.Process.Kill` runs
at most once; it runs exactly when the context watcher claims the gate
first, and not at all when the natural exit does. -/
theorem killProcess_at_most_once (calls rest : List ExitRacer) :
    killsInvoked false calls ≤ 1 ∧
    killsInvoked false (.contextDone :: rest) = 1 ∧
    killsInvoked false (.naturalExit :: rest) = 0 := by
  refine ⟨?_, ?_, ?_⟩
  · cases calls with
    | nil => simp [killsInvoked]
    | cons r tl =>
      cases r <;> simp [killsInvoked, killsInvoked_done]
  · simp [killsInvoked, killsInvoked_done]
  · simp [killsInvoked, killsInvoked_done]

end Tailssh
